import Mathlib

/-!
Verification of core behaviours of the spacegate gateway kernel.

The definitions below are shallow embeddings of the Rust sources:
  - `src/kernel/src/plugins/filters/status.rs` (the backend-health status filter),
  - `src/kernel/src/functions/http_client.rs` (the outbound HTTP client),
  - `src/kernel/src/config/config_by_redis.rs` (the config loader and watcher).

Machine integers are modelled as `Nat`/`Int`; the `u16` failure counter wraps
modulo `2 ^ 16` exactly where the Rust `u16` addition does, and the `u64 → i64`
cast on the failure-window length is made explicit.
-/

namespace Spacegate

/-- Backend health classification, from `status_plugin::Status`.
`Good` is the default variant. -/
inductive Status where
  | Good
  | Minor
  | Major
deriving DecidableEq, Repr, Inhabited

/-- Configuration of the status filter (`SgFilterStatus` in `status.rs`).
`unhealthy_threshold` is a `u16` and `interval` a `u64` in the source; both are
modelled as `Nat` (they are only read, never overflowed, by the filter). -/
structure SgFilterStatus where
  serv_addr : String
  port : Nat
  title : String
  unhealthy_threshold : Nat
  interval : Nat
  cache_key : String
deriving DecidableEq, Repr

/-- The `Default` impl of `SgFilterStatus` in `status.rs`. -/
def SgFilterStatus.default : SgFilterStatus :=
  ⟨"0.0.0.0", 8110, "System Status", 3, 5, "spacegate:cache:plugin:status"⟩

/-- The Rust `as i64` cast applied to a `u64` value (used for
`now + self.interval as i64`).  A `u64` value below `2 ^ 63` is unchanged;
larger values wrap to negative. -/
def u64AsI64 (n : Nat) : Int :=
  if n % 2 ^ 64 < 2 ^ 63 then ((n % 2 ^ 64 : Nat) : Int)
  else ((n % 2 ^ 64 : Nat) : Int) - 2 ^ 64

/-- State touched by the status filter's response phase, for one gateway:
`store` is the cache hash `<cache_key>:<gateway_name>` (field = backend name,
value = parsed status), `serverErr` is the in-process `SERVER_ERR` map from
backend name to `(times, expire_epoch_seconds)` where `times` is a `u16`
(kept below `2 ^ 16`) and `expire` an `i64` epoch timestamp. -/
structure StatusState where
  store : String → Option Status
  serverErr : String → Option (Nat × Int)

/-- The empty state: no stored statuses, no failure counters. -/
def StatusState.empty : StatusState := ⟨fun _ => none, fun _ => none⟩

/-- Shallow embedding of `SgFilterStatus::resp_filter` (status.rs lines
160-213).  Arguments: the filter config, the chosen backend name from the
context (`ctx.get_chose_backend_name()`), whether the response is an error
(`ctx.is_resp_error()`), the current epoch second (`Utc::now().timestamp()`),
and the state.  Returns the status written to the store by this invocation
(`none` when no `update_status` call is made) together with the new state.
The `u16` increment `*times + 1` wraps modulo `2 ^ 16`. -/
def resp_filter (cfg : SgFilterStatus) (chosenBackend : Option String)
    (isRespError : Bool) (now : Int) (st : StatusState) :
    Option Status × StatusState :=
  match chosenBackend with
  | none => (none, st)
  | some backendName =>
    if isRespError then
      match st.serverErr backendName with
      | some (times, expire) =>
        if now < expire then
          let written := if cfg.unhealthy_threshold ≤ times then Status.Major else Status.Minor
          (some written,
            ⟨Function.update st.store backendName (some written),
             Function.update st.serverErr backendName
               (some ((times + 1) % 2 ^ 16, now + u64AsI64 cfg.interval))⟩)
        else
          (none,
            ⟨st.store,
             Function.update st.serverErr backendName
               (some (1, now + u64AsI64 cfg.interval))⟩)
      | none =>
        (some Status.Minor,
          ⟨Function.update st.store backendName (some Status.Minor),
           Function.update st.serverErr backendName
             (some (1, now + u64AsI64 cfg.interval))⟩)
    else
      match st.store backendName with
      | some status =>
        if status ≠ Status.Good then
          (some Status.Good,
            ⟨Function.update st.store backendName (some Status.Good), st.serverErr⟩)
        else (none, st)
      | none => (none, st)

/-- Runs the response phase of the status filter once per element of
`errorTimes`, each time with an error response for backend `b`, threading the
state; the list holds the observation timestamps in order. -/
def runRespErrors (cfg : SgFilterStatus) (b : String) :
    List Int → StatusState → StatusState
  | [], st => st
  | t :: rest, st => runRespErrors cfg b rest (resp_filter cfg (some b) true t st).2

/-- `withinFrom w e ts` says each timestamp in `ts` falls before the current
window expiry, where the expiry starts at `e` and is refreshed to `t + w` by
the observation at time `t` — exactly how `resp_filter` refreshes `expire`. -/
def withinFrom (w : Int) : Int → List Int → Prop
  | _, [] => True
  | e, t :: rest => t < e ∧ withinFrom w (t + w) rest

/-- Backend protocol, from `SgProtocol` in the gateway config DTOs (the DTO
file is outside the sampled slice; per the spec's data model, `protocol` is
`http | https` with default `http`). -/
inductive SgProtocol where
  | Http
  | Https
deriving DecidableEq, Repr

/-- The scheme string produced for a protocol by the `Display`-driven
`format!("{}://...", scheme, ...)` in `http_client::request`. -/
def schemeStr : SgProtocol → String
  | SgProtocol.Http => "http"
  | SgProtocol.Https => "https"

/-- The backend descriptor fields read by `http_client::request`
(`name_or_host`, `namespace`, `port : u16`, `protocol`, `timeout_ms : u64`). -/
structure AvailableBackendInst where
  name_or_host : String
  «namespace» : Option String
  port : Nat
  protocol : Option SgProtocol
  timeout_ms : Option Nat
deriving DecidableEq, Repr

/-- `let scheme = backend.protocol.as_ref().unwrap_or(&SgProtocol::Http)`
in `http_client.rs` line 87. -/
def effectiveScheme (b : AvailableBackendInst) : SgProtocol :=
  b.protocol.getD SgProtocol.Http

/-- The host part of the synthesised URL, `http_client.rs` line 88:
`format!("{}{}", backend.name_or_host,
backend.namespace.as_ref().map(|n| format!(".{n}")).unwrap_or("".to_string()))`. -/
def hostString (b : AvailableBackendInst) : String :=
  b.name_or_host ++ (match b.«namespace» with
    | some n => "." ++ n
    | none => "")

/-- The port part of the synthesised URL, `http_client.rs` lines 89-93. -/
def portString (b : AvailableBackendInst) : String :=
  if ((b.port == 0 || b.port == 80) && (effectiveScheme b == SgProtocol.Http))
      || ((b.port == 0 || b.port == 443) && (effectiveScheme b == SgProtocol.Https))
  then ""
  else ":" ++ toString b.port

/-- The full backend URL synthesised by `http_client::request`, line 94:
`format!("{}://{}{}{}", scheme, host, port, path_and_query)`. -/
def backendUrl (b : AvailableBackendInst) (pathAndQuery : String) : String :=
  schemeStr (effectiveScheme b) ++ "://" ++ hostString b ++ portString b ++ pathAndQuery

/-- Error values produced by the modelled client and loader, mirroring the
`TardisError` constructors the sources use.  `panicked` stands for a Rust
panic (`.unwrap()` on a failed deserialization in the config loader). -/
inductive SgError where
  | badRequest (msg : String)
  | internalError (msg : String)
  | custom (code : String) (msg : String)
  | notFound (msg : String)
  | conflict (msg : String)
  | panicked
deriving DecidableEq, Repr

/-- An HTTP response as the client observes it: status code, headers, body. -/
structure HttpResponse where
  status : Nat
  headers : List (String × String)
  body : String
deriving DecidableEq, Repr

/-- The synthetic response built on timeout in `raw_request`, line 151:
`Response::builder().status(StatusCode::GATEWAY_TIMEOUT).body(Body::empty())`. -/
def gatewayTimeoutResponse : HttpResponse := ⟨504, [], ""⟩

/-- `DEFAULT_TIMEOUT_MS` from `http_client.rs` line 16. -/
def DEFAULT_TIMEOUT_MS : Nat := 5000

/-- ASCII check applied to a header value; `HeaderValue::to_str` fails exactly
on values containing non-ASCII bytes (values are modelled as strings). -/
def isAsciiStr (s : String) : Bool :=
  s.data.all (fun c => c.toNat ≤ 127)

/-- The header-copying loop of `raw_request`, lines 139-144: each header is
copied verbatim onto the request builder; the first value that is not ASCII
aborts with the `bad_request` error naming the offending key. -/
def copyHeaders : List (String × String) → Except SgError (List (String × String))
  | [] => Except.ok []
  | (k, v) :: rest =>
    if isAsciiStr v then
      match copyHeaders rest with
      | Except.ok hs => Except.ok ((k, v) :: hs)
      | Except.error e => Except.error e
    else
      Except.error (SgError.badRequest ("Header " ++ k ++ " value is illegal: is not ascii"))

/-- The outbound request assembled by `raw_request` before sending. -/
structure OutboundRequest where
  method : String
  url : String
  headers : List (String × String)
  body : String
deriving DecidableEq, Repr

/-- Request assembly in `raw_request`, lines 137-146: method, copied headers,
uri, then the body build whose failure (malformed URL and similar, an effect
of the hyper builder abstracted as the `buildOk` oracle) yields the
`internal_error` value. -/
def buildRequest (method url body : String) (headers : List (String × String))
    (buildOk : Bool) : Except SgError OutboundRequest :=
  match copyHeaders headers with
  | Except.error e => Except.error e
  | Except.ok hs =>
    if buildOk then Except.ok ⟨method, url, hs, body⟩
    else Except.error (SgError.internalError
      ("[SG.Route] Build request method " ++ method ++ " url " ++ url ++ " error"))

/-- Shallow embedding of `http_client::raw_request` (lines 119-155).  The
transport is an oracle: `none` means the send never completes, and
`some (d, r)` means it completes after `d` milliseconds with result `r`
(`Except.error` being a hyper transport error, rendered as the 502-tagged
custom error).  The deadline is `timeout_ms` with default
`DEFAULT_TIMEOUT_MS`; completion strictly after the deadline is a timeout and
yields the synthetic 504 response, not an error. -/
def raw_request (method url body : String) (headers : List (String × String))
    (timeout_ms : Option Nat) (buildOk : Bool)
    (transport : Option (Nat × Except String HttpResponse)) :
    Except SgError HttpResponse :=
  let t := timeout_ms.getD DEFAULT_TIMEOUT_MS
  match buildRequest method url body headers buildOk with
  | Except.error e => Except.error e
  | Except.ok _ =>
    match transport with
    | some (d, result) =>
      if d ≤ t then
        match result with
        | Except.ok resp => Except.ok resp
        | Except.error err =>
          Except.error (SgError.custom "502"
            ("[SG.Client] Request method " ++ method ++ " url " ++ url ++ " error: " ++ err))
      else Except.ok gatewayTimeoutResponse
    | none => Except.ok gatewayTimeoutResponse

/-- A gateway descriptor as the config loader consumes it.  The DTO file is
outside the sampled slice; per the spec's data model `G` is identified by a
unique `name` (the only field the loader reads) and otherwise carries listen
parameters, abstracted here into an opaque payload string. -/
structure SgGateway where
  name : String
  payload : String
deriving DecidableEq, Repr, Inhabited

/-- An HTTP route descriptor: carried by the loader but never inspected, so it
is modelled as an opaque payload. -/
structure SgHttpRoute where
  payload : String
deriving DecidableEq, Repr, Inhabited

/-- `CONF_GATEWAY_KEY` from `config_by_redis.rs` line 21. -/
def CONF_GATEWAY_KEY : String := "sg:conf:gateway"

/-- `CONF_HTTP_ROUTE_KEY` from `config_by_redis.rs` line 23. -/
def CONF_HTTP_ROUTE_KEY : String := "sg:conf:route:http:"

/-- A Rust `.unwrap()` on a deserialization result: `none` aborts the run
(modelled as the `panicked` error). -/
def unwrapOpt : Option α → Except SgError α
  | some a => Except.ok a
  | none => Except.error SgError.panicked

/-- Shallow embedding of the snapshot part of `config_by_redis::init`
(lines 27-40; the spawned watch loop is modelled separately by `watchRun`).
Inputs: the deserializers for gateways and routes (`str_to_obj`, abstracted),
the `hgetall` result for the `conf:gateway` hash as a field/value list, and
`lrangeall` as a function from key to list of serialized routes.  An empty
gateway hash yields the `not_found` error; each value is deserialized with
`.unwrap()`, and each gateway's route list is read from
`CONF_HTTP_ROUTE_KEY ++ gateway.name`. -/
def configInit (parseG : String → Option SgGateway)
    (parseR : String → Option SgHttpRoute)
    (gatewayHash : List (String × String))
    (lrangeall : String → List String) :
    Except SgError (List (SgGateway × List SgHttpRoute)) :=
  if gatewayHash.isEmpty then
    Except.error (SgError.notFound
      "[SG.Config] Gateway Config not found in \x7bCONF_GATEWAY_KEY\x7d")
  else do
    let gatewayConfigs ← (gatewayHash.map (fun kv => kv.2)).mapM
      (fun v => unwrapOpt (parseG v))
    gatewayConfigs.mapM (fun g => do
      let routes ← (lrangeall (CONF_HTTP_ROUTE_KEY ++ g.name)).mapM
        (fun v => unwrapOpt (parseR v))
      pure (g, routes))

/-- The `lru::LruCache` used for `CHANGE_CACHE`, modelled as a
most-recent-first association list.  `lruPut cap k v c` is `LruCache::put`:
if `k` is present its entry is promoted to the front with the new value and
the old value is returned; otherwise `(k, v)` is pushed at the front and the
least-recent entry beyond `cap` is evicted. -/
def lruPut (cap : Nat) (k : String) (v : Bool) (c : List (String × Bool)) :
    Option Bool × List (String × Bool) :=
  match c.find? (fun e => e.1 == k) with
  | some old => (some old.2, (k, v) :: c.eraseP (fun e => e.1 == k))
  | none => (none, ((k, v) :: c).take cap)

/-- Position (recency rank) of the entry with key `u` in the LRU list. -/
def keyPos (u : String) : List (String × Bool) → Option Nat
  | [] => none
  | e :: l => if e.1 = u then some 0 else (keyPos u l).map (fun i => i + 1)

/-- A change trigger after the watcher has stripped `CONF_CHANGE_TRIGGER` and
split the remainder on `##` (config_by_redis.rs lines 50-58):
`f[0]` is the idempotency token, `f[1]` the changed object kind,
`f[2]` the gateway name. -/
structure Trigger where
  unique : String
  obj : String
  gatewayName : String
deriving DecidableEq, Repr

/-- The effect the watcher dispatches for a non-skipped trigger
(config_by_redis.rs lines 61-83). -/
inductive WatchEffect where
  | restartGateway (name : String)
  | reinitRoutes (name : String)
  | shutdownGateway (name : String)
deriving DecidableEq, Repr

/-- Dispatch on the changed-object kind: with the gateway config present,
`gateway` restarts (shutdown then do_startup) and `httproute` re-inits the
routes; with it absent only `gateway` acts (shutdown); anything else is
ignored. -/
def dispatchEffect (gatewayPresent : String → Bool) (t : Trigger) :
    Option WatchEffect :=
  if gatewayPresent t.gatewayName then
    if t.obj == "gateway" then some (WatchEffect.restartGateway t.gatewayName)
    else if t.obj == "httproute" then some (WatchEffect.reinitRoutes t.gatewayName)
    else none
  else
    if t.obj == "gateway" then some (WatchEffect.shutdownGateway t.gatewayName)
    else none

/-- One trigger through the watcher body (config_by_redis.rs lines 53-83):
`CHANGE_CACHE.put(unique, true)` runs first; if it returns `Some` the trigger
is skipped (`continue`), otherwise the effect is dispatched.  Returns the new
LRU state and the list (empty or singleton) of applied triggers with their
effects. -/
def watchStep (gatewayPresent : String → Bool) (cache : List (String × Bool))
    (t : Trigger) :
    List (String × Bool) × List (Trigger × Option WatchEffect) :=
  let r := lruPut 100 t.unique true cache
  if (r.1).isSome then (r.2, [])
  else (r.2, [(t, dispatchEffect gatewayPresent t)])

/-- The watcher processing a sequence of observed triggers in scan order,
threading the process-wide `CHANGE_CACHE`; passes of the poll loop simply
concatenate. -/
def watchRun (gatewayPresent : String → Bool) :
    List (String × Bool) → List Trigger →
    List (String × Bool) × List (Trigger × Option WatchEffect)
  | cache, [] => (cache, [])
  | cache, t :: rest =>
    let s := watchStep gatewayPresent cache t
    let r := watchRun gatewayPresent s.1 rest
    (r.1, s.2 ++ r.2)

/-- Number of applied (non-skipped, effect-dispatching) triggers carrying the
unique token `u`. -/
def appliedFor (u : String) (applied : List (Trigger × Option WatchEffect)) : Nat :=
  (applied.filter (fun p => p.1.unique == u)).length

/-- 100 pairwise-distinct trigger uniques, enough to flush the LRU. -/
def evictTriggers : List Trigger :=
  (List.range 100).map (fun i => ⟨"k" ++ toString i, "gateway", "g"⟩)

end Spacegate

open Spacegate

/-- Claim C2: in the status filter's response phase, an error response observed
when the backend's failure-counter entry exists but has expired (`exp ≤ now`)
writes nothing to the status store, leaves the previously stored status
unchanged, and resets the in-process counter entry for that backend to
`(1, now + W)` (other backends' counters untouched). -/
theorem c2_expired_window_resets_counter_without_store_write
    (cfg : SgFilterStatus) (b : String) (now : Int) (st : StatusState)
    (t : Nat) (e : Int)
    (hentry : st.serverErr b = some (t, e)) (hexp : e ≤ now)
    (hcast : cfg.interval < 2 ^ 63) :
    (resp_filter cfg (some b) true now st).1 = none ∧
    (resp_filter cfg (some b) true now st).2.store = st.store ∧
    (resp_filter cfg (some b) true now st).2.serverErr b
      = some (1, now + (cfg.interval : Int)) ∧
    ∀ b', b' ≠ b → (resp_filter cfg (some b) true now st).2.serverErr b' = st.serverErr b' := by
  have hcast' : u64AsI64 cfg.interval = (cfg.interval : Int) := by
    have h64 : cfg.interval % 2 ^ 64 = cfg.interval :=
      Nat.mod_eq_of_lt (lt_trans hcast (by norm_num))
    unfold u64AsI64
    rw [h64, if_pos hcast]
  have hnotlt : ¬ now < e := not_lt.mpr hexp
  refine ⟨?_, ?_, ?_, ?_⟩ <;>
    simp [resp_filter, hentry, hnotlt, hcast', Function.update_same]
  intro b' hb'
  simp [Function.update_noteq hb']

/-- Witness for C2 at a concrete input: counter `(2, 100)` for backend `"x"`,
error response at `now = 100` (so the window has expired). -/
theorem c2_witness :
    (resp_filter SgFilterStatus.default (some "x") true 100
        ⟨fun _ => some Status.Major, fun b => if b = "x" then some (2, 100) else none⟩).1 = none ∧
    (resp_filter SgFilterStatus.default (some "x") true 100
        ⟨fun _ => some Status.Major, fun b => if b = "x" then some (2, 100) else none⟩).2.store
      = (fun _ => some Status.Major) ∧
    (resp_filter SgFilterStatus.default (some "x") true 100
        ⟨fun _ => some Status.Major, fun b => if b = "x" then some (2, 100) else none⟩).2.serverErr "x"
      = some (1, 100 + ((SgFilterStatus.default).interval : Int)) ∧
    ∀ b', b' ≠ "x" →
      (resp_filter SgFilterStatus.default (some "x") true 100
        ⟨fun _ => some Status.Major, fun b => if b = "x" then some (2, 100) else none⟩).2.serverErr b'
        = (fun b => if b = "x" then some (2, 100) else none) b' :=
  c2_expired_window_resets_counter_without_store_write
    SgFilterStatus.default "x" 100
    ⟨fun _ => some Status.Major, fun b => if b = "x" then some (2, 100) else none⟩
    2 100 (by simp) (by norm_num) (by norm_num [SgFilterStatus.default])

/-- Claim C3: in the status filter's response phase, for a success response
with a chosen backend whose status store entry is `some s`, the store is
written (with value `Good`) if and only if `s ≠ Good`, and the in-process
failure counter map is left entirely unchanged. -/
theorem c3_success_writes_good_iff_not_good
    (cfg : SgFilterStatus) (b : String) (now : Int) (st : StatusState)
    (s : Status) (hstore : st.store b = some s) :
    ((resp_filter cfg (some b) false now st).1 = none ∨
     (resp_filter cfg (some b) false now st).1 = some Status.Good) ∧
    ((resp_filter cfg (some b) false now st).1 = some Status.Good ↔ s ≠ Status.Good) ∧
    (resp_filter cfg (some b) false now st).2.serverErr = st.serverErr := by
  by_cases h : s = Status.Good <;>
    simp [resp_filter, hstore, h]

/-- Witness for C3 at a concrete input: stored status `Minor` for `"x"`, a
success response writes `Good` and leaves the counter map alone. -/
theorem c3_witness :
    ((resp_filter SgFilterStatus.default (some "x") false 7
        ⟨fun _ => some Status.Minor, fun _ => some (1, 12)⟩).1 = none ∨
     (resp_filter SgFilterStatus.default (some "x") false 7
        ⟨fun _ => some Status.Minor, fun _ => some (1, 12)⟩).1 = some Status.Good) ∧
    ((resp_filter SgFilterStatus.default (some "x") false 7
        ⟨fun _ => some Status.Minor, fun _ => some (1, 12)⟩).1 = some Status.Good
      ↔ Status.Minor ≠ Status.Good) ∧
    (resp_filter SgFilterStatus.default (some "x") false 7
        ⟨fun _ => some Status.Minor, fun _ => some (1, 12)⟩).2.serverErr
      = (fun _ => some (1, 12)) :=
  c3_success_writes_good_iff_not_good SgFilterStatus.default "x" 7
    ⟨fun _ => some Status.Minor, fun _ => some (1, 12)⟩ Status.Minor rfl

/-- Claim C10: in the status filter's response phase, a success response for a
chosen backend that has no entry in the status store hash writes nothing and
leaves the whole state unchanged: a success never creates a status entry. -/
theorem c10_success_never_creates_entry
    (cfg : SgFilterStatus) (b : String) (now : Int) (st : StatusState)
    (hnone : st.store b = none) :
    resp_filter cfg (some b) false now st = (none, st) := by
  simp [resp_filter, hnone]

/-- Witness for C10 at a concrete input: empty state, success response. -/
theorem c10_witness :
    resp_filter SgFilterStatus.default (some "x") false 3 StatusState.empty
      = (none, StatusState.empty) :=
  c10_success_never_creates_entry SgFilterStatus.default "x" 3 StatusState.empty rfl

/-- Helper: a run of error responses starting from an existing counter entry
`(n, e)`, with every observation inside the (refreshing) window, increments the
counter once per error and leaves the store holding `Major` exactly when the
counter value seen by the last error (`n + ts.length - 1`) has reached the
threshold, `Minor` otherwise. -/
theorem runRespErrors_inWindow (cfg : SgFilterStatus) (b : String)
    (hcast : cfg.interval < 2 ^ 63) :
    ∀ (ts : List Int) (st : StatusState) (n : Nat) (e : Int),
      st.serverErr b = some (n, e) →
      withinFrom (cfg.interval : Int) e ts →
      1 ≤ n → n + ts.length ≤ 2 ^ 16 - 1 → ts ≠ [] →
      (runRespErrors cfg b ts st).store b
        = some (if cfg.unhealthy_threshold ≤ n + ts.length - 1
                then Status.Major else Status.Minor)
      ∧ ∃ e', (runRespErrors cfg b ts st).serverErr b = some (n + ts.length, e') := by
  have hcast' : u64AsI64 cfg.interval = (cfg.interval : Int) := by
    have h64 : cfg.interval % 2 ^ 64 = cfg.interval :=
      Nat.mod_eq_of_lt (lt_trans hcast (by norm_num))
    unfold u64AsI64
    rw [h64, if_pos hcast]
  intro ts
  induction ts with
  | nil => intro st n e _ _ _ _ hne; exact absurd rfl hne
  | cons t rest ih =>
    intro st n e hentry hwin h1 hbound _
    obtain ⟨hlt, hwin'⟩ := hwin
    have hmod : (n + 1) % 2 ^ 16 = n + 1 := by
      have : n + 1 < 2 ^ 16 := by
        have := hbound; simp only [List.length_cons] at this; omega
      exact Nat.mod_eq_of_lt this
    have hmod' : (n + 1) % 65536 = n + 1 := hmod
    have hstep : resp_filter cfg (some b) true t st
        = (some (if cfg.unhealthy_threshold ≤ n then Status.Major else Status.Minor),
           ⟨Function.update st.store b
              (some (if cfg.unhealthy_threshold ≤ n then Status.Major else Status.Minor)),
            Function.update st.serverErr b
              (some (n + 1, t + (cfg.interval : Int)))⟩) := by
      simp [resp_filter, hentry, hlt, hmod, hmod', hcast']
    have hrun : runRespErrors cfg b (t :: rest) st
        = runRespErrors cfg b rest (resp_filter cfg (some b) true t st).2 := rfl
    rcases List.eq_nil_or_concat rest with hrest | _
    · subst hrest
      rw [hrun, hstep]
      simp only [runRespErrors, List.length_cons, List.length_nil]
      constructor
      · simp [Function.update_same]
      · exact ⟨t + (cfg.interval : Int), by simp [Function.update_same]⟩
    · have hne' : rest ≠ [] := by
        rename_i hcat; obtain ⟨l, a, rfl⟩ := hcat; simp
      rw [hrun, hstep]
      have hentry' :
          (⟨Function.update st.store b
              (some (if cfg.unhealthy_threshold ≤ n then Status.Major else Status.Minor)),
            Function.update st.serverErr b
              (some (n + 1, t + (cfg.interval : Int)))⟩ : StatusState).serverErr b
            = some (n + 1, t + (cfg.interval : Int)) := by
        simp [Function.update_same]
      have hbound' : (n + 1) + rest.length ≤ 2 ^ 16 - 1 := by
        have := hbound; simp only [List.length_cons] at this; omega
      obtain ⟨hstore, e', hserr⟩ := ih _ (n + 1) (t + (cfg.interval : Int))
        hentry' hwin' (by omega) hbound' hne'
      have harith : n + 1 + rest.length - 1 = n + (t :: rest).length - 1 := by
        simp only [List.length_cons]; omega
      have hlen : n + 1 + rest.length = n + (t :: rest).length := by
        simp only [List.length_cons]; omega
      rw [harith] at hstore
      rw [hlen] at hserr
      exact ⟨hstore, e', hserr⟩

/-- Helper: timestamps that all lie in the single window `[t0, t0 + w)` are in
particular inside the refreshing window that starts expiring at `t0 + w`. -/
theorem withinFrom_of_single_window (w t0 : Int) :
    ∀ (rest : List Int), (∀ t ∈ rest, t0 ≤ t ∧ t < t0 + w) →
      ∀ e, t0 + w ≤ e → withinFrom w e rest := by
  intro rest
  induction rest with
  | nil => intro _ e _; trivial
  | cons t rest ih =>
    intro h e he
    refine ⟨lt_of_lt_of_le (h t (by simp)).2 he, ?_⟩
    exact ih (fun x hx => h x (by simp [hx])) (t + w)
      (by have := (h t (by simp)).1; omega)

/-- Counterexample to claim C1 as stated: with the default configuration
(`unhealthy_threshold U = 3`, `interval W = 5`), three consecutive error
responses for backend `"b"` at epoch second 0 — i.e. `U` consecutive failures
within a single window — leave the stored status at `Minor`, not `Major`
(the code compares the counter value from *before* the current failure against
the threshold, so `Major` is first written on failure `U + 1`). -/
theorem c1_counterexample :
    (runRespErrors SgFilterStatus.default "b" [0, 0, 0] StatusState.empty).store "b"
      = some Status.Minor ∧
    (runRespErrors SgFilterStatus.default "b" [0, 0, 0] StatusState.empty).store "b"
      ≠ some Status.Major := by
  constructor
  · rfl
  · intro h
    rw [show (runRespErrors SgFilterStatus.default "b" [0, 0, 0] StatusState.empty).store "b"
        = some Status.Minor from rfl] at h
    exact absurd (Option.some.inj h) (by decide)

/-- Claim C1 (amended): for a backend with no live failure counter, a run of
`k` consecutive error responses that all fall in the single window opened by
the first failure stores `Major` when `k ≥ U + 1` (the code escalates when the
pre-increment counter reaches `U`, hence one failure later than the claim
stated) and `Minor` when `1 ≤ k ≤ U`; one subsequent success response then
stores `Good`.  Side conditions: `U ≥ 1`, the window length fits in `i64`, and
`k` stays below the `u16` counter wrap. -/
theorem c1_amended_escalation (cfg : SgFilterStatus) (b : String) (t0 : Int)
    (rest : List Int) (st : StatusState) (tS : Int)
    (hfresh : st.serverErr b = none)
    (hU : 1 ≤ cfg.unhealthy_threshold)
    (hcast : cfg.interval < 2 ^ 63)
    (hwin : ∀ t ∈ rest, t0 ≤ t ∧ t < t0 + (cfg.interval : Int))
    (hbound : rest.length + 1 ≤ 2 ^ 16 - 1) :
    (runRespErrors cfg b (t0 :: rest) st).store b
      = some (if cfg.unhealthy_threshold + 1 ≤ rest.length + 1
              then Status.Major else Status.Minor)
    ∧ (resp_filter cfg (some b) false tS
        (runRespErrors cfg b (t0 :: rest) st)).2.store b = some Status.Good := by
  have hcast' : u64AsI64 cfg.interval = (cfg.interval : Int) := by
    have h64 : cfg.interval % 2 ^ 64 = cfg.interval :=
      Nat.mod_eq_of_lt (lt_trans hcast (by norm_num))
    unfold u64AsI64
    rw [h64, if_pos hcast]
  have hstep : resp_filter cfg (some b) true t0 st
      = (some Status.Minor,
         ⟨Function.update st.store b (some Status.Minor),
          Function.update st.serverErr b (some (1, t0 + (cfg.interval : Int)))⟩) := by
    simp [resp_filter, hfresh, hcast']
  have hrun : runRespErrors cfg b (t0 :: rest) st
      = runRespErrors cfg b rest (resp_filter cfg (some b) true t0 st).2 := rfl
  have hmain : (runRespErrors cfg b (t0 :: rest) st).store b
      = some (if cfg.unhealthy_threshold + 1 ≤ rest.length + 1
              then Status.Major else Status.Minor) := by
    rcases List.eq_nil_or_concat rest with hrest | hcat
    · subst hrest
      rw [hrun, hstep]
      simp only [runRespErrors]
      rw [if_neg (by simp only [List.length_nil]; omega)]
      simp [Function.update_same]
    · have hne' : rest ≠ [] := by obtain ⟨l, a, rfl⟩ := hcat; simp
      rw [hrun, hstep]
      have hentry' :
          (⟨Function.update st.store b (some Status.Minor),
            Function.update st.serverErr b
              (some (1, t0 + (cfg.interval : Int)))⟩ : StatusState).serverErr b
            = some (1, t0 + (cfg.interval : Int)) := by
        simp [Function.update_same]
      obtain ⟨hstore, _⟩ := runRespErrors_inWindow cfg b hcast rest _ 1
        (t0 + (cfg.interval : Int)) hentry'
        (withinFrom_of_single_window (cfg.interval : Int) t0 rest hwin _ le_rfl)
        le_rfl (by omega) hne'
      rw [hstore]
      exact congrArg some (if_congr (by omega) rfl rfl)
  refine ⟨hmain, ?_⟩
  have hne : (if cfg.unhealthy_threshold + 1 ≤ rest.length + 1
      then Status.Major else Status.Minor) ≠ Status.Good := by
    split <;> decide
  revert hmain hne
  generalize (if cfg.unhealthy_threshold + 1 ≤ rest.length + 1
      then Status.Major else Status.Minor) = v
  intro hmain hne
  simp [resp_filter, hmain, hne, Function.update_same]

/-- Witness for the amended C1 at a concrete input: default configuration
(`U = 3`, `W = 5`), four failures at epoch seconds `0, 1, 1, 2` (all inside the
window `[0, 5)`), then a success at epoch second 99: the run stores `Major`
(`4 = U + 1`) and the success stores `Good`. -/
theorem c1_amended_witness :
    (runRespErrors SgFilterStatus.default "b" (0 :: [1, 1, 2]) StatusState.empty).store "b"
      = some (if SgFilterStatus.default.unhealthy_threshold + 1 ≤ [1, 1, 2].length + 1
              then Status.Major else Status.Minor)
    ∧ (resp_filter SgFilterStatus.default (some "b") false 99
        (runRespErrors SgFilterStatus.default "b" (0 :: [1, 1, 2]) StatusState.empty)).2.store "b"
      = some Status.Good :=
  c1_amended_escalation SgFilterStatus.default "b" 0 [1, 1, 2] StatusState.empty 99
    rfl (by decide) (by norm_num [SgFilterStatus.default])
    (by decide) (by decide)

/-- Helper: a prepended colon makes the port fragment nonempty. -/
theorem colon_append_ne_empty (s : String) : (":" ++ s) ≠ "" := by
  intro h
  have h2 := congrArg String.length h
  simp [String.length_append] at h2
  exact absurd h2.1 (by decide)

/-- Claim C4: the URL synthesised by `http_client::request` omits the port
component (the port fragment is empty) if and only if the backend's port is
0 or 80 with effective scheme http, or 0 or 443 with effective scheme https;
in every other case the fragment is `":<port>"`. -/
theorem c4_port_omitted_iff_default (b : AvailableBackendInst) :
    (portString b = "" ↔
      ((b.port = 0 ∨ b.port = 80) ∧ effectiveScheme b = SgProtocol.Http) ∨
      ((b.port = 0 ∨ b.port = 443) ∧ effectiveScheme b = SgProtocol.Https)) ∧
    (portString b ≠ "" → portString b = ":" ++ toString b.port) := by
  by_cases hc : ((b.port = 0 ∨ b.port = 80) ∧ effectiveScheme b = SgProtocol.Http) ∨
      ((b.port = 0 ∨ b.port = 443) ∧ effectiveScheme b = SgProtocol.Https)
  · have hp : portString b = "" := by
      unfold portString
      rw [if_pos]
      simpa [Bool.or_eq_true, Bool.and_eq_true, beq_iff_eq] using hc
    simp [hp, hc]
  · have hp : portString b = ":" ++ toString b.port := by
      unfold portString
      rw [if_neg]
      intro h
      exact hc (by simpa [Bool.or_eq_true, Bool.and_eq_true, beq_iff_eq] using h)
    rw [hp]
    exact ⟨by simp [colon_append_ne_empty (toString b.port), hc], fun _ => rfl⟩

/-- Witness for C4 at a concrete input: port 8080 over http is appended. -/
theorem c4_witness :
    portString ⟨"svc", none, 8080, some SgProtocol.Http, none⟩ ≠ "" ∧
    portString ⟨"svc", none, 8080, some SgProtocol.Http, none⟩
      = ":" ++ toString (8080 : Nat) :=
  have h := c4_port_omitted_iff_default ⟨"svc", none, 8080, some SgProtocol.Http, none⟩
  have hne : portString ⟨"svc", none, 8080, some SgProtocol.Http, none⟩ ≠ "" := by
    intro heq
    rcases h.1.mp heq with ⟨h1, _⟩ | ⟨h1, h2⟩
    · rcases h1 with h1 | h1 <;> simp at h1
    · exact absurd h2 (by decide)
  ⟨hne, h.2 hne⟩

/-- Claim C5: in the host part of the synthesised URL, an absent namespace
contributes nothing and a present namespace `n` appends `"." ++ n` to
`name_or_host`. -/
theorem c5_namespace_contribution (b : AvailableBackendInst) :
    hostString ⟨b.name_or_host, none, b.port, b.protocol, b.timeout_ms⟩
      = b.name_or_host ∧
    ∀ n, hostString ⟨b.name_or_host, some n, b.port, b.protocol, b.timeout_ms⟩
      = b.name_or_host ++ "." ++ n := by
  constructor
  · simp [hostString]
  · intro n
    simp [hostString, String.append_assoc]

/-- Helper: header values that are all ASCII are copied verbatim. -/
theorem copyHeaders_all_ascii :
    ∀ (hs : List (String × String)), (∀ kv ∈ hs, isAsciiStr kv.2 = true) →
      copyHeaders hs = Except.ok hs := by
  intro hs
  induction hs with
  | nil => intro _; rfl
  | cons kv rest ih =>
    intro h
    obtain ⟨k, v⟩ := kv
    have h1 : isAsciiStr v = true := h (k, v) (by simp)
    have h2 := ih (fun x hx => h x (by simp [hx]))
    simp [copyHeaders, h1, h2]

/-- Helper: a non-ASCII header value makes the copy loop fail with the
`bad_request` error naming some offending key. -/
theorem copyHeaders_nonascii_err :
    ∀ (hs : List (String × String)), (∃ kv ∈ hs, isAsciiStr kv.2 = false) →
      ∃ k, copyHeaders hs
        = Except.error (SgError.badRequest ("Header " ++ k ++ " value is illegal: is not ascii")) := by
  intro hs
  induction hs with
  | nil => intro h; simp at h
  | cons kv rest ih =>
    intro h
    obtain ⟨k, v⟩ := kv
    by_cases hv : isAsciiStr v = true
    · have hrest : ∃ kv ∈ rest, isAsciiStr kv.2 = false := by
        rcases h with ⟨x, hx, hxf⟩
        rcases List.mem_cons.mp hx with rfl | hx'
        · exact absurd hv (by simp [hxf])
        · exact ⟨x, hx', hxf⟩
      obtain ⟨k', hk'⟩ := ih hrest
      exact ⟨k', by simp [copyHeaders, hv, hk']⟩
    · exact ⟨k, by simp [copyHeaders, hv]⟩

/-- Claim C6: a `raw_request` whose underlying transport does not complete
within the deadline (`timeout_ms`, default 5000 ms when absent) — and that
reaches the send (ASCII headers, request built) — returns `Ok` with a
synthetic 504 Gateway Timeout response carrying an empty body, never an
error value. -/
theorem c6_timeout_yields_synthetic_504 (method url body : String)
    (headers : List (String × String)) (timeout_ms : Option Nat)
    (transport : Option (Nat × Except String HttpResponse))
    (hh : ∀ kv ∈ headers, isAsciiStr kv.2 = true)
    (ht : ∀ d r, transport = some (d, r) → timeout_ms.getD DEFAULT_TIMEOUT_MS < d) :
    raw_request method url body headers timeout_ms true transport
      = Except.ok ⟨504, [], ""⟩ := by
  have hcopy := copyHeaders_all_ascii headers hh
  unfold raw_request buildRequest
  rw [hcopy]
  cases transport with
  | none => simp [gatewayTimeoutResponse]
  | some p =>
    obtain ⟨d, r⟩ := p
    have hd := ht d r rfl
    simp [Nat.not_le.mpr hd, gatewayTimeoutResponse]

/-- Witness for C6 at a concrete input: no transport completion at all,
default timeout, no headers. -/
theorem c6_witness :
    raw_request "GET" "http://backend" "" [] none true none
      = Except.ok ⟨504, [], ""⟩ :=
  c6_timeout_yields_synthetic_504 "GET" "http://backend" "" [] none none
    (by simp) (fun d r h => nomatch h)

/-- Claim C7: `raw_request` copies every provided header verbatim onto the
outbound request (when all values are ASCII the copied header list is exactly
the input), and returns a `BadRequest` error whenever any header's value is
not ASCII. -/
theorem c7_headers_verbatim_or_bad_request (method url body : String)
    (headers : List (String × String)) (timeout_ms : Option Nat) (buildOk : Bool)
    (transport : Option (Nat × Except String HttpResponse)) :
    ((∀ kv ∈ headers, isAsciiStr kv.2 = true) →
      buildRequest method url body headers true
        = Except.ok ⟨method, url, headers, body⟩) ∧
    ((∃ kv ∈ headers, isAsciiStr kv.2 = false) →
      ∃ k, raw_request method url body headers timeout_ms buildOk transport
        = Except.error (SgError.badRequest ("Header " ++ k ++ " value is illegal: is not ascii"))) := by
  constructor
  · intro hh
    unfold buildRequest
    rw [copyHeaders_all_ascii headers hh]
    simp
  · intro hex
    obtain ⟨k, hk⟩ := copyHeaders_nonascii_err headers hex
    exact ⟨k, by unfold raw_request buildRequest; rw [hk]⟩

/-- Witness for C7 at concrete inputs: the ASCII header list `[("h1","abc")]`
is copied verbatim, and the header value `"日本語"` yields `BadRequest`. -/
theorem c7_witness :
    buildRequest "GET" "u" "" [("h1", "abc")] true
      = Except.ok ⟨"GET", "u", [("h1", "abc")], ""⟩ ∧
    ∃ k, raw_request "GET" "u" "" [("h2", "日本語")] none true none
      = Except.error (SgError.badRequest ("Header " ++ k ++ " value is illegal: is not ascii")) :=
  ⟨(c7_headers_verbatim_or_bad_request "GET" "u" "" [("h1", "abc")] none true none).1 (by decide),
   (c7_headers_verbatim_or_bad_request "GET" "u" "" [("h2", "日本語")] none true none).2 (by decide)⟩

/-- Helper: unwrapping a present option succeeds with its value. -/
theorem unwrapOpt_of_isSome {β : Type} [Inhabited β] (o : Option β)
    (h : o.isSome = true) : unwrapOpt o = Except.ok (o.getD default) := by
  cases o with
  | none => simp at h
  | some b => rfl

/-- Helper: `mapM` of a pointwise-succeeding function is `ok` of the map. -/
theorem mapM_ok_map {α β : Type} (f : α → Except SgError β) (F : α → β)
    (h : ∀ a, f a = Except.ok (F a)) (l : List α) :
    l.mapM f = Except.ok (l.map F) := by
  induction l with
  | nil => rfl
  | cons a rest ih =>
    rw [List.mapM_cons, h a, ih]
    rfl

/-- Claim C9: the config loader's `init` returns the `not_found` error when
the `conf:gateway` hash is empty, and otherwise (when every stored value
deserializes) returns the assembled vector pairing each gateway with the
route list read from `conf:route:http:<name>`. -/
theorem c9_loader_not_found_or_assembled (parseG : String → Option SgGateway)
    (parseR : String → Option SgHttpRoute)
    (gatewayHash : List (String × String)) (lrangeall : String → List String) :
    (gatewayHash = [] →
      configInit parseG parseR gatewayHash lrangeall
        = Except.error (SgError.notFound
            "[SG.Config] Gateway Config not found in \x7bCONF_GATEWAY_KEY\x7d")) ∧
    (gatewayHash ≠ [] → (∀ s, (parseG s).isSome = true) → (∀ s, (parseR s).isSome = true) →
      configInit parseG parseR gatewayHash lrangeall
        = Except.ok (gatewayHash.map (fun kv =>
            ((parseG kv.2).getD default,
             (lrangeall (CONF_HTTP_ROUTE_KEY ++ ((parseG kv.2).getD default).name)).map
               (fun v => (parseR v).getD default))))) := by
  constructor
  · intro h; subst h; rfl
  · intro hne hG hR
    have hempty : gatewayHash.isEmpty = false := by
      cases gatewayHash with
      | nil => exact absurd rfl hne
      | cons kv rest => rfl
    unfold configInit
    rw [if_neg (by simp [hempty])]
    rw [mapM_ok_map (fun v => unwrapOpt (parseG v)) (fun v => (parseG v).getD default)
      (fun v => unwrapOpt_of_isSome (parseG v) (hG v))]
    have hinner : ∀ g : SgGateway,
        (do
          let routes ← (lrangeall (CONF_HTTP_ROUTE_KEY ++ g.name)).mapM
            (fun v => unwrapOpt (parseR v))
          pure (g, routes) :
          Except SgError (SgGateway × List SgHttpRoute))
        = Except.ok (g, (lrangeall (CONF_HTTP_ROUTE_KEY ++ g.name)).map
            (fun v => (parseR v).getD default)) := by
      intro g
      rw [mapM_ok_map (fun v => unwrapOpt (parseR v)) (fun v => (parseR v).getD default)
        (fun v => unwrapOpt_of_isSome (parseR v) (hR v))]
      rfl
    show ((gatewayHash.map (fun kv => kv.2)).map (fun v => (parseG v).getD default)).mapM _
        = _
    rw [mapM_ok_map _ (fun g => (g, (lrangeall (CONF_HTTP_ROUTE_KEY ++ g.name)).map
          (fun v => (parseR v).getD default))) hinner]
    rw [List.map_map, List.map_map]
    rfl

/-- Witness for C9 at concrete inputs: a one-entry hash with trivially
succeeding deserializers assembles one `(gateway, routes)` pair. -/
theorem c9_witness :
    configInit (fun s => some ⟨"g1", s⟩) (fun s => some ⟨s⟩)
        [("g1", "gv")] (fun _ => ["r1", "r2"])
      = Except.ok [(⟨"g1", "gv"⟩, [⟨"r1"⟩, ⟨"r2"⟩])] ∧
    configInit (fun s => some ⟨"g1", s⟩) (fun s => some ⟨s⟩)
        [] (fun _ => ["r1", "r2"])
      = Except.error (SgError.notFound
          "[SG.Config] Gateway Config not found in \x7bCONF_GATEWAY_KEY\x7d") :=
  ⟨(c9_loader_not_found_or_assembled (fun s => some ⟨"g1", s⟩) (fun s => some ⟨s⟩)
      [("g1", "gv")] (fun _ => ["r1", "r2"])).2
      (by simp) (fun s => rfl) (fun s => rfl),
   (c9_loader_not_found_or_assembled (fun s => some ⟨"g1", s⟩) (fun s => some ⟨s⟩)
      [] (fun _ => ["r1", "r2"])).1 rfl⟩

/-- Helper: erasing an entry keyed `k ≠ u` keeps `u` present, at a position
no larger than before. -/
theorem keyPos_eraseP (u k : String) (hne : k ≠ u) :
    ∀ (l : List (String × Bool)) (i : Nat), keyPos u l = some i →
      ∃ j, j ≤ i ∧ keyPos u (l.eraseP (fun e => e.1 == k)) = some j := by
  intro l
  induction l with
  | nil => intro i h; simp [keyPos] at h
  | cons e l ih =>
    intro i h
    by_cases hek : e.1 = k
    · rw [List.eraseP_cons_of_pos (by simp [hek])]
      have heu : ¬ (e.1 = u) := by rw [hek]; exact hne
      rw [keyPos, if_neg heu] at h
      cases hkl : keyPos u l with
      | none => rw [hkl] at h; simp at h
      | some i' =>
        rw [hkl] at h
        simp at h
        exact ⟨i', by omega, rfl⟩
    · rw [List.eraseP_cons_of_neg (by simp [hek])]
      by_cases heu : e.1 = u
      · rw [keyPos, if_pos heu] at h
        refine ⟨0, by omega, ?_⟩
        rw [keyPos, if_pos heu]
      · rw [keyPos, if_neg heu] at h
        cases hkl : keyPos u l with
        | none => rw [hkl] at h; simp at h
        | some i' =>
          rw [hkl] at h
          simp at h
          obtain ⟨j', hj', hkl'⟩ := ih i' hkl
          refine ⟨j' + 1, by omega, ?_⟩
          rw [keyPos, if_neg heu, hkl']
          rfl

/-- Helper: taking at least `i + 1` elements keeps the entry at position `i`. -/
theorem keyPos_take (u : String) :
    ∀ (l : List (String × Bool)) (n i : Nat), keyPos u l = some i → i < n →
      keyPos u (l.take n) = some i := by
  intro l
  induction l with
  | nil => intro n i h _; simp [keyPos] at h
  | cons e l ih =>
    intro n i h hin
    cases n with
    | zero => omega
    | succ m =>
      rw [List.take_succ_cons]
      by_cases heu : e.1 = u
      · rw [keyPos, if_pos heu] at h ⊢
        exact h
      · rw [keyPos, if_neg heu] at h ⊢
        cases hkl : keyPos u l with
        | none => rw [hkl] at h; simp at h
        | some i' =>
          rw [hkl] at h
          simp at h
          rw [ih m i' hkl (by omega)]
          simp [h]

/-- Helper: a present key is found by `find?`. -/
theorem find?_isSome_of_keyPos (u : String) :
    ∀ (l : List (String × Bool)) (i : Nat), keyPos u l = some i →
      (l.find? (fun e => e.1 == u)).isSome = true := by
  intro l
  induction l with
  | nil => intro i h; simp [keyPos] at h
  | cons e l ih =>
    intro i h
    by_cases heu : e.1 = u
    · rw [List.find?_cons_of_pos _ (by simp [heu])]
      rfl
    · rw [List.find?_cons_of_neg _ (by simp [heu])]
      rw [keyPos, if_neg heu] at h
      cases hkl : keyPos u l with
      | none => rw [hkl] at h; simp at h
      | some i' => exact ih i' hkl

/-- Helper: after `put u`, the entry for `u` sits at the front of the LRU. -/
theorem keyPos_lruPut_self (cap : Nat) (hcap : 0 < cap) (u : String) (v : Bool)
    (c : List (String × Bool)) :
    keyPos u (lruPut cap u v c).2 = some 0 := by
  unfold lruPut
  cases hf : c.find? (fun e => e.1 == u) with
  | some old => simp [keyPos]
  | none =>
    cases cap with
    | zero => omega
    | succ m => simp [List.take_succ_cons, keyPos]

/-- Helper: `put` of a different key moves `u` back by at most one slot and,
as long as it stays within the capacity, never evicts it. -/
theorem keyPos_lruPut_other (u k : String) (hne : k ≠ u) (v : Bool)
    (c : List (String × Bool)) (i : Nat) (hpos : keyPos u c = some i)
    (hi : i + 1 < 100) :
    ∃ j, j ≤ i + 1 ∧ keyPos u (lruPut 100 k v c).2 = some j := by
  unfold lruPut
  cases hf : c.find? (fun e => e.1 == k) with
  | some old =>
    obtain ⟨j', hj', hkl'⟩ := keyPos_eraseP u k hne c i hpos
    refine ⟨j' + 1, by omega, ?_⟩
    simp [keyPos, hne, hkl']
  | none =>
    refine ⟨i + 1, le_refl _, ?_⟩
    have hcons : keyPos u ((k, v) :: c) = some (i + 1) := by
      simp [keyPos, hne, hpos]
    exact keyPos_take u ((k, v) :: c) 100 (i + 1) hcons hi

/-- Helper: `put` of a key already present returns `some`, so the watcher
skips the trigger. -/
theorem lruPut_isSome_of_keyPos (cap : Nat) (u : String) (v : Bool)
    (c : List (String × Bool)) (i : Nat) (hpos : keyPos u c = some i) :
    ((lruPut cap u v c).1).isSome = true := by
  have hf := find?_isSome_of_keyPos u c i hpos
  unfold lruPut
  cases hfind : c.find? (fun e => e.1 == u) with
  | none => rw [hfind] at hf; simp at hf
  | some e => simp

/-- Helper: a trigger whose unique the LRU already holds is skipped: the put
refreshes the entry and nothing is applied. -/
theorem watchStep_skip (present : String → Bool) (c : List (String × Bool))
    (t : Trigger) (h : ((lruPut 100 t.unique true c).1).isSome = true) :
    watchStep present c t = ((lruPut 100 t.unique true c).2, []) := by
  unfold watchStep
  simp [h]

/-- Helper: the LRU after a watch step is the put result, applied or skipped. -/
theorem watchStep_fst (present : String → Bool) (c : List (String × Bool))
    (t : Trigger) :
    (watchStep present c t).1 = (lruPut 100 t.unique true c).2 := by
  unfold watchStep
  by_cases h : ((lruPut 100 t.unique true c).1).isSome = true <;> simp [h]

/-- Helper: processing a concatenation of trigger lists threads the LRU and
concatenates the applied lists. -/
theorem watchRun_append (present : String → Bool) :
    ∀ (l1 l2 : List Trigger) (c : List (String × Bool)),
      watchRun present c (l1 ++ l2)
        = ((watchRun present (watchRun present c l1).1 l2).1,
           (watchRun present c l1).2
             ++ (watchRun present (watchRun present c l1).1 l2).2) := by
  intro l1
  induction l1 with
  | nil => intro l2 c; simp [watchRun]
  | cons t l1 ih =>
    intro l2 c
    have h1 : watchRun present c ((t :: l1) ++ l2)
        = ((watchRun present (watchStep present c t).1 (l1 ++ l2)).1,
           (watchStep present c t).2
             ++ (watchRun present (watchStep present c t).1 (l1 ++ l2)).2) := rfl
    have h2 : watchRun present c (t :: l1)
        = ((watchRun present (watchStep present c t).1 l1).1,
           (watchStep present c t).2
             ++ (watchRun present (watchStep present c t).1 l1).2) := rfl
    rw [h1, ih l2 (watchStep present c t).1, h2]
    simp [List.append_assoc]

/-- Helper: applied-trigger counts add over concatenation. -/
theorem appliedFor_append (u : String) (a b : List (Trigger × Option WatchEffect)) :
    appliedFor u (a ++ b) = appliedFor u a + appliedFor u b := by
  simp [appliedFor, List.filter_append]

/-- Helper: while the token `u` is in the LRU and at most 99 triggers with
other uniques are processed, no trigger for `u` is applied and `u` stays in
the LRU, drifting back at most one slot per step. -/
theorem watchRun_retains_and_skips (present : String → Bool) (u : String) :
    ∀ (mid : List Trigger) (c : List (String × Bool)) (i : Nat),
      (∀ t ∈ mid, t.unique ≠ u) → keyPos u c = some i → i + mid.length ≤ 99 →
      appliedFor u (watchRun present c mid).2 = 0 ∧
      ∃ j, j ≤ i + mid.length ∧ keyPos u (watchRun present c mid).1 = some j := by
  intro mid
  induction mid with
  | nil =>
    intro c i _ hpos _
    exact ⟨rfl, i, le_refl _, hpos⟩
  | cons t rest ih =>
    intro c i hmid hpos hbound
    have htu : t.unique ≠ u := hmid t (by simp)
    have hlt : i + 1 < 100 := by
      simp only [List.length_cons] at hbound
      omega
    obtain ⟨j, hj, hposj⟩ := keyPos_lruPut_other u t.unique htu true c i hpos hlt
    have hstate : (watchStep present c t).1 = (lruPut 100 t.unique true c).2 := by
      unfold watchStep
      by_cases hsome : ((lruPut 100 t.unique true c).1).isSome = true <;> simp [hsome]
    have happ : appliedFor u (watchStep present c t).2 = 0 := by
      unfold watchStep
      by_cases hsome : ((lruPut 100 t.unique true c).1).isSome = true <;>
        simp [hsome, appliedFor, htu]
    have hposj' : keyPos u (watchStep present c t).1 = some j := by
      rw [hstate]; exact hposj
    obtain ⟨hrest0, j', hj', hposj''⟩ := ih (watchStep present c t).1 j
      (fun x hx => hmid x (by simp [hx])) hposj'
      (by simp only [List.length_cons] at hbound; omega)
    have hcons2 : (watchRun present c (t :: rest)).2
        = (watchStep present c t).2
          ++ (watchRun present (watchStep present c t).1 rest).2 := rfl
    have hcons1 : (watchRun present c (t :: rest)).1
        = (watchRun present (watchStep present c t).1 rest).1 := rfl
    constructor
    · rw [hcons2, appliedFor_append, happ, hrest0]
    · refine ⟨j', ?_, ?_⟩
      · simp only [List.length_cons]; omega
      · rw [hcons1]; exact hposj''

/-- Counterexample to claim C8 as stated: from an empty debounce LRU, the
trigger sequence `u`, then 100 distinct other uniques, then `u` again causes
the `u` restart effect to be applied twice in one process (the 100 distinct
puts evict `u` from the capacity-100 LRU). -/
theorem c8_counterexample :
    ((watchRun (fun _ => true) []
        (Trigger.mk "u" "gateway" "g1" :: (evictTriggers ++ [Trigger.mk "u" "gateway" "g1"]))).2.filter
      (fun p => p.1.unique == "u"))
    = [(Trigger.mk "u" "gateway" "g1", some (WatchEffect.restartGateway "g1")),
       (Trigger.mk "u" "gateway" "g1", some (WatchEffect.restartGateway "g1"))] := by
  rfl

/-- Claim C8 (amended): for two triggers carrying the same unique token, at
most one effect is applied per process provided at most 99 triggers bearing
other uniques are processed in between (so the token is not evicted from the
capacity-100 debounce LRU); in particular the later trigger, whose unique is
still present in the LRU, is skipped. -/
theorem c8_amended_debounce (present : String → Bool)
    (c0 : List (String × Bool)) (t1 t2 : Trigger) (mid : List Trigger)
    (huniq : t2.unique = t1.unique)
    (hmid : ∀ t ∈ mid, t.unique ≠ t1.unique)
    (hlen : mid.length ≤ 99) :
    appliedFor t1.unique (watchRun present c0 (t1 :: (mid ++ [t2]))).2 ≤ 1 := by
  have hcons2 : (watchRun present c0 (t1 :: (mid ++ [t2]))).2
      = (watchStep present c0 t1).2
        ++ (watchRun present (watchStep present c0 t1).1 (mid ++ [t2])).2 := rfl
  rw [hcons2, appliedFor_append]
  have h1 : appliedFor t1.unique (watchStep present c0 t1).2 ≤ 1 := by
    unfold watchStep
    by_cases hsome : ((lruPut 100 t1.unique true c0).1).isSome = true
    · simp [hsome, appliedFor]
    · simp [hsome, appliedFor]
  have hstate : (watchStep present c0 t1).1 = (lruPut 100 t1.unique true c0).2 := by
    unfold watchStep
    by_cases hsome : ((lruPut 100 t1.unique true c0).1).isSome = true <;> simp [hsome]
  have hpos0 : keyPos t1.unique (watchStep present c0 t1).1 = some 0 := by
    rw [hstate]
    exact keyPos_lruPut_self 100 (by norm_num) t1.unique true c0
  obtain ⟨hmid0, j, hjle, hposj⟩ := watchRun_retains_and_skips present t1.unique mid
    (watchStep present c0 t1).1 0 hmid hpos0 (by omega)
  have hskip : appliedFor t1.unique
      (watchRun present (watchRun present (watchStep present c0 t1).1 mid).1 [t2]).2 = 0 := by
    have hsome := lruPut_isSome_of_keyPos 100 t2.unique true
      (watchRun present (watchStep present c0 t1).1 mid).1 j (by rw [huniq]; exact hposj)
    have hlast : (watchRun present (watchRun present (watchStep present c0 t1).1 mid).1 [t2]).2
        = (watchStep present (watchRun present (watchStep present c0 t1).1 mid).1 t2).2 ++ [] := rfl
    have hstep2 : (watchStep present (watchRun present (watchStep present c0 t1).1 mid).1 t2).2
        = [] :=
      congrArg Prod.snd
        (watchStep_skip present (watchRun present (watchStep present c0 t1).1 mid).1 t2 hsome)
    rw [hlast, hstep2]
    rfl
  rw [watchRun_append present mid [t2] (watchStep present c0 t1).1, appliedFor_append,
    hmid0, hskip]
  omega

/-- Witness for the amended C8 at a concrete input: trigger `u` applied, then
`u` again immediately (zero intervening uniques) is skipped: at most one
application. -/
theorem c8_amended_witness :
    appliedFor (Trigger.mk "u" "gateway" "g1").unique
      (watchRun (fun _ => true) []
        (Trigger.mk "u" "gateway" "g1" :: ([] ++ [Trigger.mk "u" "httproute" "g1"]))).2 ≤ 1 :=
  c8_amended_debounce (fun _ => true) [] (Trigger.mk "u" "gateway" "g1")
    (Trigger.mk "u" "httproute" "g1") [] rfl (fun t ht => nomatch ht) (by simp)
